import Mathlib

/-! Verification development for the `watch` package.

Shallow embedding of `watch/inotify.go` (the direct watcher,
`InotifyFileWatcher`) and `watch/rotatateble_inotify.go` (the rotation-aware
watcher, `RotatingFileWatcher`).

Modelling conventions

* Every call the Go code makes on a collaborator (the change sink, the
  fsnotify watcher, the creation-watch registry, the filesystem, the logger)
  is recorded, in program order, as an `Action` of a trace.  "The worker emits
  X" means: the trace contains the call `changes.NotifyX()`.
* What a collaborator answers is an input of the model: each low-level event
  comes together with the answers the filesystem gives while that event is
  being handled.
* A goroutine blocked in `select` consumes a finite list of inputs; when the
  list is used up the goroutine is still blocked (`exited = false`).
* Which paths the fsnotify watcher is subscribed to is computed from the
  trace by `watchList`, with the outcome of each `watcher.Add` as an input.
* `int64` values are `Int`; the code only compares and copies them.
* `fsnotify.Op` is a bit mask, modelled as `Nat` with `&&&`.
-/

namespace Fsnotify

/-- The type `fsnotify.Op`: a bit mask of event kinds. -/
abbrev Op := Nat

/-- Bit `fsnotify.Create`. -/
def Create : Op := 1
/-- Bit `fsnotify.Write`. -/
def Write : Op := 2
/-- Bit `fsnotify.Remove`. -/
def Remove : Op := 4
/-- Bit `fsnotify.Rename`. -/
def Rename : Op := 8
/-- Bit `fsnotify.Chmod`. -/
def Chmod : Op := 16

/-- The type `fsnotify.Event`. -/
structure Event where
  Name : String
  Op : Fsnotify.Op
  deriving DecidableEq

end Fsnotify

namespace Watch

open Fsnotify

/-- The three signals of the change sink `FileChanges`. -/
inductive Notification where
  | Modified
  | Truncated
  | Deleted
  deriving DecidableEq

/-- Answer of a filesystem primitive (`os.Stat`, `os.Lstat`, `os.Readlink`):
success with a value, an error for which `os.IsNotExist` holds, or any other
error. -/
inductive FsResult (α : Type) where
  | ok (v : α)
  | notExist
  | otherErr
  deriving DecidableEq

/-- Argument of `watcher.Add` / `watcher.Remove`: a path, or
`filepath.Dir` of a path. -/
inductive WatchPath where
  | path (p : String)
  | dirOf (p : String)
  deriving DecidableEq

/-- Calls made on collaborators, recorded in program order. -/
inductive Action where
  /-- One of `changes.NotifyModified()`, `NotifyTruncated()`, `NotifyDeleted()`. -/
  | notify (n : Notification)
  /-- A call of `log.Printf`. -/
  | log
  /-- The call `time.Sleep(100 * time.Millisecond)`. -/
  | sleep
  /-- The call `fsnotify.NewWatcher()`. -/
  | newWatcher
  /-- The call `watcher.Add(p)`. -/
  | watcherAdd (p : WatchPath)
  /-- The call `watcher.Remove(p)`. -/
  | watcherRemove (p : WatchPath)
  /-- The call `watcher.Close()`. -/
  | watcherClose
  /-- The call `WatchCreate(p)`. -/
  | watchCreate (p : String)
  /-- The call `RemoveWatchCreate(p)`. -/
  | removeWatchCreate (p : String)
  /-- The call `Events(p)`. -/
  | eventsOf (p : String)
  /-- The call `os.Stat(p)`. -/
  | stat (p : String)
  /-- The call `os.Lstat(p)`. -/
  | lstat (p : String)
  /-- The call `os.Readlink(p)`. -/
  | readlink (p : String)
  deriving DecidableEq

/-- The notification sent by an action, if it is a `Notify` call. -/
def Action.notification? : Action → Option Notification
  | .notify n => some n
  | _ => none

/-- The notifications of a trace, in order. -/
def notifications (t : List Action) : List Notification :=
  t.filterMap Action.notification?

/-! ## The direct watcher (`inotify.go`) -/

/-- The struct `InotifyFileWatcher`. -/
structure InotifyFileWatcher where
  Filename : String
  Size : Int
  deriving DecidableEq

/-- What one `select` of the worker of `ChangeEvents` receives.  An event
carries the answers `os.Lstat(fw.Filename)` and `os.Stat(fw.Filename)` give
while it is handled (the size is `fi.Size()`). -/
inductive Select where
  | event (e : Event) (lstat : FsResult Unit) (stat : FsResult Int)
  /-- The channel `watcher.Events` is closed. -/
  | eventsClosed
  /-- A value arrives on `watcher.Errors`. -/
  | error
  /-- The channel `watcher.Errors` is closed. -/
  | errorsClosed
  /-- The tomb is dying. -/
  | dying
  deriving DecidableEq

/-- Result of one iteration of the worker loop: new watcher state, the calls
made, and whether the goroutine returns. -/
structure Iter where
  fw : InotifyFileWatcher
  trace : List Action
  exit : Bool
  deriving DecidableEq

/-- One iteration of the `for / select` loop of the goroutine started by
`InotifyFileWatcher.ChangeEvents`. -/
def workerStep (fw : InotifyFileWatcher) : Select → Iter
  | .event event lstat stat =>
    if event.Name ≠ fw.Filename then
      ⟨fw, [], false⟩
    else if event.Op &&& Remove = Remove then
      match lstat with
      | .notExist => ⟨fw, [.sleep, .lstat fw.Filename, .notify .Deleted], true⟩
      | .otherErr => ⟨fw, [.sleep, .lstat fw.Filename, .log], false⟩
      | .ok _ =>
        ⟨⟨fw.Filename, 0⟩, [.sleep, .lstat fw.Filename, .log, .notify .Modified], false⟩
    else
      match stat with
      | .notExist => ⟨fw, [.stat fw.Filename, .notify .Deleted], true⟩
      | .otherErr => ⟨fw, [.stat fw.Filename, .log], false⟩
      | .ok newSize =>
        if fw.Size > 0 ∧ fw.Size > newSize then
          ⟨⟨fw.Filename, newSize⟩, [.stat fw.Filename, .notify .Truncated], false⟩
        else if newSize > fw.Size then
          ⟨⟨fw.Filename, newSize⟩, [.stat fw.Filename, .notify .Modified], false⟩
        else
          ⟨⟨fw.Filename, newSize⟩, [.stat fw.Filename], false⟩
  | .eventsClosed => ⟨fw, [], true⟩
  | .error => ⟨fw, [.log], false⟩
  | .errorsClosed => ⟨fw, [], true⟩
  | .dying => ⟨fw, [], true⟩

/-- State of a goroutine after it consumed (part of) its inputs. -/
structure Run (σ : Type) where
  fw : σ
  trace : List Action
  exited : Bool
  deriving DecidableEq

/-- The goroutine started by `InotifyFileWatcher.ChangeEvents`: the loop, and
the deferred `watcher.Close()` when it returns.  Inputs after the return are
never received. -/
def worker (fw : InotifyFileWatcher) : List Select → Run InotifyFileWatcher
  | [] => ⟨fw, [], false⟩
  | i :: rest =>
    let r := workerStep fw i
    if r.exit then
      ⟨r.fw, r.trace ++ [.watcherClose], true⟩
    else
      let r2 := worker r.fw rest
      ⟨r2.fw, r.trace ++ r2.trace, r2.exited⟩

/-- Errors returned by the two watchers. -/
inductive Err where
  | newWatcher
  | watcherAdd
  | watchCreate
  | stat
  | readlink
  | abs
  | closed
  | dying
  deriving DecidableEq

/-- `InotifyFileWatcher.ChangeEvents(t, pos)`.  `newWatcherOk` and `addOk` say
whether `fsnotify.NewWatcher()` and `watcher.Add(dir)` succeed; `inputs` is
what the goroutine receives.  On success the result is the run of the
goroutine (the sink is returned to the caller at once). -/
def InotifyFileWatcher.ChangeEvents (fw : InotifyFileWatcher) (pos : Int)
    (newWatcherOk addOk : Bool) (inputs : List Select) :
    Except Err (Run InotifyFileWatcher) × List Action :=
  if ¬ newWatcherOk then
    (.error .newWatcher, [.newWatcher])
  else if ¬ addOk then
    (.error .watcherAdd, [.newWatcher, .watcherAdd (.dirOf fw.Filename), .watcherClose])
  else
    (.ok (worker ⟨fw.Filename, pos⟩ inputs),
      [.newWatcher, .watcherAdd (.dirOf fw.Filename)])

/-- What the `select` of `InotifyFileWatcher.BlockUntilExists` receives. -/
inductive CreateSelect where
  /-- A creation event for `name` arrives on `events` (`ok` is true). -/
  | event (name : String)
  /-- The channel `events` is closed (`ok` is false). -/
  | closed
  /-- The tomb is dying. -/
  | dying
  deriving DecidableEq

/-- Result of a blocking call: it returned (`nil` is `none`), or it is still
blocked after all inputs. -/
inductive Outcome where
  | returned (err : Option Err)
  | blocked
  deriving DecidableEq

/-- The `for / select` loop of `InotifyFileWatcher.BlockUntilExists`;
`abs` is `filepath.Abs` (`none` when it fails). -/
def blockLoop (fw : InotifyFileWatcher) (abs : String → Option String) :
    List CreateSelect → Outcome
  | [] => .blocked
  | .event name :: rest =>
    match abs name with
    | none => .returned (some .abs)
    | some evtName =>
      match abs fw.Filename with
      | none => .returned (some .abs)
      | some fwFilename =>
        if evtName = fwFilename then .returned none else blockLoop fw abs rest
  | .closed :: _ => .returned (some .closed)
  | .dying :: _ => .returned (some .dying)

/-- `InotifyFileWatcher.BlockUntilExists(t)`.  `watchCreateOk` says whether
`WatchCreate` succeeds, `stat` is the answer of `os.Stat(fw.Filename)`.  The
deferred `RemoveWatchCreate` is recorded when the call returns. -/
def InotifyFileWatcher.BlockUntilExists (fw : InotifyFileWatcher)
    (watchCreateOk : Bool) (stat : FsResult Unit) (abs : String → Option String)
    (inputs : List CreateSelect) : Outcome × List Action :=
  if ¬ watchCreateOk then
    (.returned (some .watchCreate), [.watchCreate fw.Filename])
  else
    match stat with
    | .ok _ =>
      (.returned none,
        [.watchCreate fw.Filename, .stat fw.Filename, .removeWatchCreate fw.Filename])
    | .otherErr =>
      (.returned (some .stat),
        [.watchCreate fw.Filename, .stat fw.Filename, .removeWatchCreate fw.Filename])
    | .notExist =>
      match blockLoop fw abs inputs with
      | .blocked =>
        (.blocked, [.watchCreate fw.Filename, .stat fw.Filename, .eventsOf fw.Filename])
      | .returned err =>
        (.returned err,
          [.watchCreate fw.Filename, .stat fw.Filename, .eventsOf fw.Filename,
           .removeWatchCreate fw.Filename])

/-! ## The rotation-aware watcher (`rotatateble_inotify.go`) -/

/-- The struct `RotatingFileWatcher`.  The fields `watcher` and `changes` are
collaborators (their calls are recorded in the trace); the mutex is held for
the whole of `handleEvent` and has no effect on a single worker. -/
structure RotatingFileWatcher where
  symlink : String
  target : String
  deriving DecidableEq

/-- `RotatingFileWatcher.handleEvent(event, pos)`.  `readlink` and `stat` are
the answers of `os.Readlink(fw.symlink)` and `os.Stat(fw.target)` at that
moment (the size is `fi.Size()`). -/
def RotatingFileWatcher.handleEvent (fw : RotatingFileWatcher) (event : Event) (pos : Int)
    (readlink : FsResult String) (stat : FsResult Int) :
    RotatingFileWatcher × List Action :=
  if event.Name = fw.symlink ∧
      (event.Op &&& Remove = Remove ∨ event.Op &&& Rename = Rename) then
    match readlink with
    | .ok newTarget =>
      (⟨fw.symlink, newTarget⟩,
        [.readlink fw.symlink, .watcherRemove (.path fw.target),
         .watcherAdd (.path newTarget), .notify .Modified])
    | _ => (fw, [.readlink fw.symlink, .notify .Deleted])
  else if event.Name = fw.target then
    if event.Op &&& Write = Write then
      match stat with
      | .ok size =>
        if size < pos then
          (fw, [.stat fw.target, .notify .Truncated])
        else
          (fw, [.stat fw.target, .notify .Modified])
      | _ => (fw, [.stat fw.target, .notify .Deleted])
    else if event.Op &&& Remove = Remove then
      (fw, [.notify .Deleted])
    else
      (fw, [])
  else
    (fw, [])

/-- What the `select` of `watchEvents` receives. -/
inductive RotSelect where
  | event (e : Event) (readlink : FsResult String) (stat : FsResult Int)
  /-- The tomb is dying. -/
  | dying
  deriving DecidableEq

/-- `RotatingFileWatcher.watchEvents(t, pos)`: the loop, and the deferred
`fw.watcher.Close()` when it returns. -/
def RotatingFileWatcher.watchEvents (fw : RotatingFileWatcher) (pos : Int) :
    List RotSelect → Run RotatingFileWatcher
  | [] => ⟨fw, [], false⟩
  | .event e readlink stat :: rest =>
    let r := fw.handleEvent e pos readlink stat
    let r2 := RotatingFileWatcher.watchEvents r.1 pos rest
    ⟨r2.fw, r.2 ++ r2.trace, r2.exited⟩
  | .dying :: _ => ⟨fw, [.watcherClose], true⟩

/-- `RotatingFileWatcher.ChangeEvents(t, pos)`.  `newWatcherOk`, `addDirOk`,
`readlink` and `addTargetOk` are the answers of `fsnotify.NewWatcher()`,
`watcher.Add(filepath.Dir(fw.symlink))`, `os.Readlink(fw.symlink)` and
`watcher.Add(target)`; `inputs` is what the goroutine receives. -/
def RotatingFileWatcher.ChangeEvents (fw : RotatingFileWatcher) (pos : Int)
    (newWatcherOk addDirOk : Bool) (readlink : FsResult String) (addTargetOk : Bool)
    (inputs : List RotSelect) : Except Err (Run RotatingFileWatcher) × List Action :=
  if ¬ newWatcherOk then
    (.error .newWatcher, [.newWatcher])
  else if ¬ addDirOk then
    (.error .watcherAdd, [.newWatcher, .watcherAdd (.dirOf fw.symlink), .watcherClose])
  else
    match readlink with
    | .ok target =>
      if ¬ addTargetOk then
        (.error .watcherAdd,
          [.newWatcher, .watcherAdd (.dirOf fw.symlink), .readlink fw.symlink,
           .watcherAdd (.path target), .watcherClose])
      else
        (.ok (RotatingFileWatcher.watchEvents ⟨fw.symlink, target⟩ pos inputs),
          [.newWatcher, .watcherAdd (.dirOf fw.symlink), .readlink fw.symlink,
           .watcherAdd (.path target)])
    | _ =>
      (.error .readlink,
        [.newWatcher, .watcherAdd (.dirOf fw.symlink), .readlink fw.symlink, .watcherClose])

/-- What the `select` of `RotatingFileWatcher.BlockUntilExists` receives. -/
inductive RotCreateSelect where
  | event (e : Event)
  /-- The tomb is dying. -/
  | dying
  deriving DecidableEq

/-- The `for / select` loop of `RotatingFileWatcher.BlockUntilExists`. -/
def rotBlockLoop (fw : RotatingFileWatcher) : List RotCreateSelect → Outcome
  | [] => .blocked
  | .event e :: rest =>
    if e.Name = fw.symlink then .returned none else rotBlockLoop fw rest
  | .dying :: _ => .returned (some .dying)

/-- `RotatingFileWatcher.BlockUntilExists(t)`.  `stat` is the answer of
`os.Stat(fw.symlink)`; `newWatcherOk` and `addOk` those of
`fsnotify.NewWatcher()` and `watcher.Add(filepath.Dir(fw.symlink))`.  The
deferred `watcher.Close()` is recorded when the call returns. -/
def RotatingFileWatcher.BlockUntilExists (fw : RotatingFileWatcher)
    (stat : FsResult Unit) (newWatcherOk addOk : Bool)
    (inputs : List RotCreateSelect) : Outcome × List Action :=
  match stat with
  | .ok _ => (.returned none, [.stat fw.symlink])
  | .otherErr => (.returned (some .stat), [.stat fw.symlink])
  | .notExist =>
    if ¬ newWatcherOk then
      (.returned (some .newWatcher), [.stat fw.symlink, .newWatcher])
    else if ¬ addOk then
      (.returned (some .watcherAdd),
        [.stat fw.symlink, .newWatcher, .watcherAdd (.dirOf fw.symlink), .watcherClose])
    else
      match rotBlockLoop fw inputs with
      | .blocked =>
        (.blocked, [.stat fw.symlink, .newWatcher, .watcherAdd (.dirOf fw.symlink)])
      | .returned err =>
        (.returned err,
          [.stat fw.symlink, .newWatcher, .watcherAdd (.dirOf fw.symlink), .watcherClose])

/-! ## The watch list of the fsnotify watcher -/

/-- Modelled from the spec: the directory notification subsystem
(`fsnotify.Watcher`, not part of this package) and its `subscribe(path)` /
`unsubscribe(path)`.  Effect of one call on the list of subscribed paths:
`watcher.Add(p)` puts `p` on the list when it succeeds (`addOk p`) and leaves
the list as it is when it fails; `watcher.Remove(p)` takes `p` off;
`watcher.Close()` drops every subscription; other calls do not touch it. -/
def watchListStep (addOk : WatchPath → Bool) (ws : List WatchPath) : Action → List WatchPath
  | .watcherAdd p => if addOk p then (if p ∈ ws then ws else ws ++ [p]) else ws
  | .watcherRemove p => ws.filter fun q => q ≠ p
  | .watcherClose => []
  | _ => ws

/-- The subscribed paths after the calls of a trace, starting from `ws`;
`addOk p` says whether `watcher.Add(p)` succeeds. -/
def watchList (addOk : WatchPath → Bool) (ws : List WatchPath) (t : List Action) :
    List WatchPath :=
  t.foldl (watchListStep addOk) ws

/-! ## Auxiliary lemmas -/

theorem notifications_append (a b : List Action) :
    notifications (a ++ b) = notifications a ++ notifications b := by
  simp [notifications, List.filterMap_append]

theorem workerStep_filename (fw : InotifyFileWatcher) (i : Select) :
    (workerStep fw i).fw.Filename = fw.Filename := by
  cases i with
  | event e lstat stat =>
    simp only [workerStep]
    split_ifs
    · rfl
    · cases lstat <;> rfl
    · cases stat with
      | ok n => simp only; split_ifs <;> rfl
      | notExist => rfl
      | otherErr => rfl
  | eventsClosed => rfl
  | error => rfl
  | errorsClosed => rfl
  | dying => rfl

theorem worker_filename (fw : InotifyFileWatcher) (l : List Select) :
    (worker fw l).fw.Filename = fw.Filename := by
  induction l generalizing fw with
  | nil => rfl
  | cons i rest ih =>
    simp only [worker]
    split_ifs
    · exact workerStep_filename fw i
    · simp only [ih]; exact workerStep_filename fw i

/-- A goroutine that has returned receives nothing more; one that is still
blocked goes on from its current state. -/
theorem worker_append (fw : InotifyFileWatcher) (l₁ l₂ : List Select)
    (h : (worker fw l₁).exited = false) :
    worker fw (l₁ ++ l₂)
      = ⟨(worker (worker fw l₁).fw l₂).fw,
         (worker fw l₁).trace ++ (worker (worker fw l₁).fw l₂).trace,
         (worker (worker fw l₁).fw l₂).exited⟩ := by
  induction l₁ generalizing fw with
  | nil => simp [worker]
  | cons i rest ih =>
    rw [List.cons_append]
    simp only [worker] at h ⊢
    by_cases hx : (workerStep fw i).exit = true
    · simp [hx] at h
    · simp only [hx, if_false, Bool.false_eq_true] at h ⊢
      rw [ih _ h]
      simp [List.append_assoc]

/-! ## The direct watcher: claims -/

/-- C1: direct watcher, size classification.  For every baseline `fw.Size` and
every event naming the watched path whose kind has no remove bit and whose
re-stat succeeds with file size `n` (a length in bytes, so `0 ≤ n`), the
iteration emits exactly Truncated when `n < fw.Size`, exactly Modified when
`fw.Size < n`, nothing when they are equal; afterwards the baseline is `n` and
the worker keeps running. -/
theorem C1_size_classification (fw : InotifyFileWatcher) (event : Event)
    (lstat : FsResult Unit) (n : Int)
    (hname : event.Name = fw.Filename)
    (hop : event.Op &&& Remove ≠ Remove)
    (hn : 0 ≤ n) :
    notifications (workerStep fw (.event event lstat (.ok n))).trace
        = (if n < fw.Size then [.Truncated] else if fw.Size < n then [.Modified] else [])
      ∧ (workerStep fw (.event event lstat (.ok n))).fw = ⟨fw.Filename, n⟩
      ∧ (workerStep fw (.event event lstat (.ok n))).exit = false := by
  simp only [workerStep, hname, hop, ne_eq, not_true_eq_false, if_false]
  by_cases h1 : n < fw.Size
  · have h2 : fw.Size > 0 ∧ fw.Size > n := ⟨by omega, h1⟩
    simp [h1, h2, notifications, Action.notification?]
  · have h2 : ¬ (fw.Size > 0 ∧ fw.Size > n) := fun h => h1 h.2
    by_cases h3 : fw.Size < n
    · have h4 : n > fw.Size := h3
      simp [h1, h2, h3, h4, notifications, Action.notification?]
    · have h4 : ¬ n > fw.Size := h3
      simp [h1, h2, h3, h4, notifications, Action.notification?]

/-- Instance of C1: baseline 100, a write event, re-stat size 50. -/
theorem C1_size_classification_witness :
    (0 : Int) ≤ 50 ∧
    notifications
        (workerStep ⟨"app.log", 100⟩ (.event ⟨"app.log", Write⟩ .notExist (.ok 50))).trace
      = [.Truncated] ∧
    (workerStep ⟨"app.log", 100⟩ (.event ⟨"app.log", Write⟩ .notExist (.ok 50))).fw
      = ⟨"app.log", 50⟩ :=
  ⟨by decide,
   (C1_size_classification ⟨"app.log", 100⟩ ⟨"app.log", Write⟩ .notExist 50
      rfl (by decide) (by decide)).1.trans (by decide),
   (C1_size_classification ⟨"app.log", 100⟩ ⟨"app.log", Write⟩ .notExist 50
      rfl (by decide) (by decide)).2.1⟩

theorem worker_growth (name : String) (p : Int) (evs : List (Op × FsResult Unit × Int))
    (hop : ∀ x ∈ evs, x.1 &&& Remove ≠ Remove)
    (hinc : List.Chain (· < ·) p (evs.map fun x => x.2.2)) :
    notifications
        (worker ⟨name, p⟩ (evs.map fun x => .event ⟨name, x.1⟩ x.2.1 (.ok x.2.2))).trace
        = List.replicate evs.length .Modified
      ∧ (worker ⟨name, p⟩ (evs.map fun x => .event ⟨name, x.1⟩ x.2.1 (.ok x.2.2))).fw
        = ⟨name, ((evs.map fun x => x.2.2).getLast?).getD p⟩
      ∧ (worker ⟨name, p⟩ (evs.map fun x => .event ⟨name, x.1⟩ x.2.1 (.ok x.2.2))).exited
        = false := by
  induction evs generalizing p with
  | nil => simp [worker, notifications]
  | cons x rest ih =>
    obtain ⟨op, l, s⟩ := x
    simp only [List.map_cons, List.chain_cons] at hinc
    obtain ⟨hps, hrest⟩ := hinc
    have hop1 : op &&& Remove ≠ Remove := hop (op, l, s) (List.mem_cons_self _ _)
    have hop2 : ∀ x ∈ rest, x.1 &&& Remove ≠ Remove :=
      fun x hx => hop x (List.mem_cons_of_mem _ hx)
    have h1 : ¬ (p > 0 ∧ p > s) := fun h => by omega
    have h2 : s > p := hps
    obtain ⟨e1, e2, e3⟩ := ih s hop2 hrest
    have hstep : workerStep ⟨name, p⟩ (.event ⟨name, op⟩ l (.ok s))
        = ⟨⟨name, s⟩, [.stat name, .notify .Modified], false⟩ := by
      simp [workerStep, hop1, h1, h2]
    simp only [List.map_cons, worker, hstep, Bool.false_eq_true, if_false]
    refine ⟨?_, ?_, e3⟩
    · rw [notifications_append, e1]
      simp [notifications, Action.notification?, List.replicate_succ]
    · rw [e2]
      cases rest with
      | nil => simp
      | cons y ys => simp [List.getLast?_cons]

/-- C2: direct watcher, growth.  `ChangeEvents` started at position `p`
(watcher creation and directory subscription succeeding) whose worker then
receives events naming the watched path, none with the remove bit, whose
re-stat sizes are strictly increasing and start above `p`, emits exactly one
Modified per event and nothing else (so no Truncated and no Deleted); the
final baseline is the last size and the worker is still running. -/
theorem C2_growth_only_modified (fw : InotifyFileWatcher) (p : Int)
    (evs : List (Op × FsResult Unit × Int))
    (hop : ∀ x ∈ evs, x.1 &&& Remove ≠ Remove)
    (hinc : List.Chain (· < ·) p (evs.map fun x => x.2.2)) :
    ∃ r, (fw.ChangeEvents p true true
            (evs.map fun x => .event ⟨fw.Filename, x.1⟩ x.2.1 (.ok x.2.2))).1 = .ok r
      ∧ notifications r.trace = List.replicate evs.length .Modified
      ∧ r.fw.Size = ((evs.map fun x => x.2.2).getLast?).getD p
      ∧ r.exited = false := by
  obtain ⟨e1, e2, e3⟩ := worker_growth fw.Filename p evs hop hinc
  refine ⟨_, by simp [InotifyFileWatcher.ChangeEvents], e1, ?_, e3⟩
  rw [e2]

/-- Instance of C2: start position 10, sizes 20, 30, 45. -/
theorem C2_growth_only_modified_witness :
    ∃ r, ((⟨"app.log", 0⟩ : InotifyFileWatcher).ChangeEvents 10 true true
            [.event ⟨"app.log", Write⟩ .notExist (.ok 20),
             .event ⟨"app.log", Chmod⟩ .notExist (.ok 30),
             .event ⟨"app.log", Write⟩ .notExist (.ok 45)]).1 = .ok r
      ∧ notifications r.trace = [.Modified, .Modified, .Modified]
      ∧ r.fw.Size = 45
      ∧ r.exited = false :=
  C2_growth_only_modified ⟨"app.log", 0⟩ 10
    [(Write, .notExist, 20), (Chmod, .notExist, 30), (Write, .notExist, 45)]
    (by decide) (by simp)

/-- The iteration that finds the watched path gone: exactly one Deleted, and
the goroutine returns. -/
theorem workerStep_gone (fw : InotifyFileWatcher) (event : Event)
    (lstat : FsResult Unit) (stat : FsResult Int)
    (hname : event.Name = fw.Filename)
    (hgone : if event.Op &&& Remove = Remove then lstat = .notExist else stat = .notExist) :
    notifications (workerStep fw (.event event lstat stat)).trace = [.Deleted]
      ∧ (workerStep fw (.event event lstat stat)).exit = true := by
  by_cases hop : event.Op &&& Remove = Remove
  · rw [if_pos hop] at hgone
    subst hgone
    simp [workerStep, hname, hop, notifications, Action.notification?]
  · rw [if_neg hop] at hgone
    subst hgone
    simp [workerStep, hname, hop, notifications, Action.notification?]

/-- C3: direct watcher, Deleted is terminal.  Whatever the worker received
before (`pre`, after which it is still running) and whatever is injected
afterwards (`post`): when an event naming the watched path is handled and the
existence check made for it (Lstat for a remove-kind event, Stat for any other
kind) reports not-found, exactly one Deleted is added to what was emitted
before, the worker exits, and nothing at all is emitted for the events of
`post`. -/
theorem C3_deleted_is_terminal (fw : InotifyFileWatcher) (pre post : List Select)
    (event : Event) (lstat : FsResult Unit) (stat : FsResult Int)
    (hrun : (worker fw pre).exited = false)
    (hname : event.Name = fw.Filename)
    (hgone : if event.Op &&& Remove = Remove then lstat = .notExist else stat = .notExist) :
    notifications (worker fw (pre ++ .event event lstat stat :: post)).trace
        = notifications (worker fw pre).trace ++ [.Deleted]
      ∧ (worker fw (pre ++ .event event lstat stat :: post)).exited = true := by
  have hname2 : event.Name = (worker fw pre).fw.Filename := by
    rw [worker_filename]; exact hname
  obtain ⟨h1, h2⟩ := workerStep_gone (worker fw pre).fw event lstat stat hname2 hgone
  rw [worker_append fw pre _ hrun]
  simp only [worker, h2, if_true]
  refine ⟨?_, trivial⟩
  rw [notifications_append, notifications_append, h1]
  simp [notifications, Action.notification?]

/-- Instance of C3, the scenario of the specification: baseline 100; stat 250
gives Modified; stat 50 gives Truncated and baseline 50; the path is removed,
giving Deleted; the injected events that follow give nothing. -/
theorem C3_deleted_is_terminal_witness :
    (worker ⟨"app.log", 100⟩
        [.event ⟨"app.log", Write⟩ (.ok ()) (.ok 250),
         .event ⟨"app.log", Write⟩ (.ok ()) (.ok 50)]).exited = false
    ∧ (worker ⟨"app.log", 100⟩
        [.event ⟨"app.log", Write⟩ (.ok ()) (.ok 250),
         .event ⟨"app.log", Write⟩ (.ok ()) (.ok 50)]).fw.Size = 50
    ∧ notifications (worker ⟨"app.log", 100⟩
        ([.event ⟨"app.log", Write⟩ (.ok ()) (.ok 250),
          .event ⟨"app.log", Write⟩ (.ok ()) (.ok 50)]
          ++ .event ⟨"app.log", Remove⟩ .notExist .notExist
          :: [.event ⟨"app.log", Write⟩ (.ok ()) (.ok 900),
              .event ⟨"app.log", Create⟩ (.ok ()) (.ok 0),
              .event ⟨"app.log", Remove⟩ .notExist .notExist,
              .error])).trace
      = [.Modified, .Truncated, .Deleted] :=
  ⟨by decide, by decide,
   (C3_deleted_is_terminal ⟨"app.log", 100⟩
      [.event ⟨"app.log", Write⟩ (.ok ()) (.ok 250),
       .event ⟨"app.log", Write⟩ (.ok ()) (.ok 50)]
      [.event ⟨"app.log", Write⟩ (.ok ()) (.ok 900),
       .event ⟨"app.log", Create⟩ (.ok ()) (.ok 0),
       .event ⟨"app.log", Remove⟩ .notExist .notExist,
       .error]
      ⟨"app.log", Remove⟩ .notExist .notExist (by decide) rfl (by decide)).1.trans
     (by decide)⟩

/-- C4: direct watcher, remove-kind event.  For every baseline and every event
naming the watched path whose kind has the remove bit: if the re-check
(Lstat after the grace period) finds the path present, exactly one Modified is
emitted for the event, the baseline becomes 0 and the worker goes on with the
following inputs from that state; if the re-check reports not-found, exactly
one Deleted is emitted and the worker exits (nothing is emitted for the
following inputs). -/
theorem C4_remove_then_recheck (fw : InotifyFileWatcher) (event : Event)
    (lstat : FsResult Unit) (stat : FsResult Int) (post : List Select)
    (hname : event.Name = fw.Filename)
    (hop : event.Op &&& Remove = Remove) :
    (lstat = .ok () →
        notifications (workerStep fw (.event event lstat stat)).trace = [.Modified]
        ∧ (workerStep fw (.event event lstat stat)).fw = ⟨fw.Filename, 0⟩
        ∧ (workerStep fw (.event event lstat stat)).exit = false
        ∧ notifications (worker fw (.event event lstat stat :: post)).trace
            = .Modified :: notifications (worker ⟨fw.Filename, 0⟩ post).trace
        ∧ (worker fw (.event event lstat stat :: post)).exited
            = (worker ⟨fw.Filename, 0⟩ post).exited)
      ∧ (lstat = .notExist →
        notifications (workerStep fw (.event event lstat stat)).trace = [.Deleted]
        ∧ (workerStep fw (.event event lstat stat)).exit = true
        ∧ notifications (worker fw (.event event lstat stat :: post)).trace = [.Deleted]
        ∧ (worker fw (.event event lstat stat :: post)).exited = true) := by
  constructor
  · intro h
    subst h
    have hstep : workerStep fw (.event event (.ok ()) stat)
        = ⟨⟨fw.Filename, 0⟩,
            [.sleep, .lstat fw.Filename, .log, .notify .Modified], false⟩ := by
      simp [workerStep, hname, hop]
    simp [worker, hstep, notifications, Action.notification?]
  · intro h
    subst h
    have hstep : workerStep fw (.event event .notExist stat)
        = ⟨fw, [.sleep, .lstat fw.Filename, .notify .Deleted], true⟩ := by
      simp [workerStep, hname, hop]
    simp [worker, hstep, notifications, Action.notification?]

/-- Instance of C4: the path is removed and recreated within the grace period
(baseline 700 is reset to 0); and the path is removed for good. -/
theorem C4_remove_then_recheck_witness :
    (notifications
        (workerStep ⟨"app.log", 700⟩
          (.event ⟨"app.log", Remove⟩ (.ok ()) .notExist)).trace = [.Modified]
      ∧ (workerStep ⟨"app.log", 700⟩
          (.event ⟨"app.log", Remove⟩ (.ok ()) .notExist)).fw = ⟨"app.log", 0⟩)
    ∧ (notifications
        (worker ⟨"app.log", 700⟩
          [.event ⟨"app.log", Remove ||| Chmod⟩ .notExist .notExist,
           .event ⟨"app.log", Write⟩ (.ok ()) (.ok 5)]).trace = [.Deleted]) :=
  ⟨⟨((C4_remove_then_recheck ⟨"app.log", 700⟩ ⟨"app.log", Remove⟩ (.ok ()) .notExist []
        rfl (by decide)).1 rfl).1,
    ((C4_remove_then_recheck ⟨"app.log", 700⟩ ⟨"app.log", Remove⟩ (.ok ()) .notExist []
        rfl (by decide)).1 rfl).2.1⟩,
   ((C4_remove_then_recheck ⟨"app.log", 700⟩ ⟨"app.log", Remove ||| Chmod⟩ .notExist
        .notExist [.event ⟨"app.log", Write⟩ (.ok ()) (.ok 5)]
        rfl (by decide)).2 rfl).2.2.1⟩

/-! ## The rotation-aware watcher: auxiliary lemmas -/

theorem handleEvent_symlink (fw : RotatingFileWatcher) (event : Event) (pos : Int)
    (readlink : FsResult String) (stat : FsResult Int) :
    (fw.handleEvent event pos readlink stat).1.symlink = fw.symlink := by
  simp only [RotatingFileWatcher.handleEvent]
  split_ifs
  · cases readlink <;> rfl
  · cases stat with
    | ok n => simp only; split_ifs <;> rfl
    | notExist => rfl
    | otherErr => rfl
  · rfl
  · rfl
  · rfl

theorem watchEvents_symlink (fw : RotatingFileWatcher) (pos : Int) (l : List RotSelect) :
    (fw.watchEvents pos l).fw.symlink = fw.symlink := by
  induction l generalizing fw with
  | nil => rfl
  | cons i rest ih =>
    cases i with
    | event e readlink stat =>
      simp only [RotatingFileWatcher.watchEvents, ih]
      exact handleEvent_symlink fw e pos readlink stat
    | dying => rfl

/-- The loop of `watchEvents` returns on cancellation only. -/
theorem watchEvents_exited_iff (fw : RotatingFileWatcher) (pos : Int) (l : List RotSelect) :
    (fw.watchEvents pos l).exited = true ↔ RotSelect.dying ∈ l := by
  induction l generalizing fw with
  | nil => simp [RotatingFileWatcher.watchEvents]
  | cons i rest ih =>
    cases i with
    | event e readlink stat => simp [RotatingFileWatcher.watchEvents, ih]
    | dying => simp [RotatingFileWatcher.watchEvents]

theorem watchEvents_append (fw : RotatingFileWatcher) (pos : Int) (l₁ l₂ : List RotSelect)
    (h : (fw.watchEvents pos l₁).exited = false) :
    fw.watchEvents pos (l₁ ++ l₂)
      = ⟨((fw.watchEvents pos l₁).fw.watchEvents pos l₂).fw,
         (fw.watchEvents pos l₁).trace ++ ((fw.watchEvents pos l₁).fw.watchEvents pos l₂).trace,
         ((fw.watchEvents pos l₁).fw.watchEvents pos l₂).exited⟩ := by
  induction l₁ generalizing fw with
  | nil => simp [RotatingFileWatcher.watchEvents]
  | cons i rest ih =>
    rw [List.cons_append]
    cases i with
    | event e readlink stat =>
      simp only [RotatingFileWatcher.watchEvents] at h ⊢
      rw [ih _ h]
      simp [List.append_assoc]
    | dying => simp [RotatingFileWatcher.watchEvents] at h

/-- A write event on the tracked target that is not taken by the first case of
the switch, with a successful stat: the size is compared with `pos`. -/
theorem handleEvent_write (fw : RotatingFileWatcher) (event : Event) (pos : Int)
    (readlink : FsResult String) (n : Int)
    (hname : event.Name = fw.target)
    (hop : event.Op &&& Write = Write)
    (hnot : ¬ (event.Name = fw.symlink ∧
      (event.Op &&& Remove = Remove ∨ event.Op &&& Rename = Rename))) :
    fw.handleEvent event pos readlink (.ok n)
      = (fw, [.stat fw.target, .notify (if n < pos then .Truncated else .Modified)]) := by
  unfold RotatingFileWatcher.handleEvent
  rw [if_neg hnot, if_pos hname, if_pos hop]
  by_cases h : n < pos
  · simp only [if_pos h]
  · simp only [if_neg h]

/-! ## The rotation-aware watcher: claims -/

/-- The calls of the retarget case.  For every event naming the indirection
path whose kind has the remove or the rename bit: if `os.Readlink` succeeds
with `B`, `handleEvent` calls `watcher.Remove` on the old target, sets the
tracked target to `B`, calls `watcher.Add(B)` and emits exactly one Modified,
whatever the two watcher calls answer; if `os.Readlink` fails, it emits
exactly one Deleted and the tracked target is unchanged.  After a retarget
from `A` to `B` with `A` different from `B` and from the indirection path, a
write event naming `B` whose stat succeeds yields exactly one notification
when it is delivered, and any event naming `A` yields no call at all. -/
theorem handleEvent_retarget_calls (fw : RotatingFileWatcher) (event : Event) (pos : Int)
    (readlink : FsResult String) (stat : FsResult Int)
    (hname : event.Name = fw.symlink)
    (hop : event.Op &&& Remove = Remove ∨ event.Op &&& Rename = Rename) :
    (∀ B, readlink = .ok B →
        fw.handleEvent event pos readlink stat
          = (⟨fw.symlink, B⟩,
              [.readlink fw.symlink, .watcherRemove (.path fw.target),
               .watcherAdd (.path B), .notify .Modified])
        ∧ notifications (fw.handleEvent event pos readlink stat).2 = [.Modified]
        ∧ (fw.target ≠ B → fw.target ≠ fw.symlink →
            (∀ (e2 : Event) (rl2 : FsResult String) (n : Int),
                e2.Name = B → e2.Op &&& Write = Write →
                ∃ x, notifications
                  (((fw.handleEvent event pos readlink stat).1).handleEvent
                    e2 pos rl2 (.ok n)).2 = [x])
            ∧ (∀ (e2 : Event) (rl2 : FsResult String) (st2 : FsResult Int),
                e2.Name = fw.target →
                ((fw.handleEvent event pos readlink stat).1).handleEvent e2 pos rl2 st2
                  = ((fw.handleEvent event pos readlink stat).1, []))))
      ∧ ((∀ B, readlink ≠ .ok B) →
        notifications (fw.handleEvent event pos readlink stat).2 = [.Deleted]
        ∧ (fw.handleEvent event pos readlink stat).1 = fw) := by
  have hcond : event.Name = fw.symlink ∧
      (event.Op &&& Remove = Remove ∨ event.Op &&& Rename = Rename) := ⟨hname, hop⟩
  constructor
  · intro B hB
    subst hB
    have hret : fw.handleEvent event pos (.ok B) stat
        = (⟨fw.symlink, B⟩,
            [.readlink fw.symlink, .watcherRemove (.path fw.target),
             .watcherAdd (.path B), .notify .Modified]) := by
      unfold RotatingFileWatcher.handleEvent
      rw [if_pos hcond]
    refine ⟨hret, ?_, ?_⟩
    · rw [hret]; simp [notifications, Action.notification?]
    · intro hAB hAs
      rw [hret]
      constructor
      · intro e2 rl2 n hn2 hw2
        by_cases hc : e2.Name = fw.symlink ∧
            (e2.Op &&& Remove = Remove ∨ e2.Op &&& Rename = Rename)
        · cases rl2 with
          | ok t =>
            refine ⟨.Modified, ?_⟩
            unfold RotatingFileWatcher.handleEvent
            simp only [if_pos hc]
            simp [notifications, Action.notification?]
          | notExist =>
            refine ⟨.Deleted, ?_⟩
            unfold RotatingFileWatcher.handleEvent
            simp only [if_pos hc]
            simp [notifications, Action.notification?]
          | otherErr =>
            refine ⟨.Deleted, ?_⟩
            unfold RotatingFileWatcher.handleEvent
            simp only [if_pos hc]
            simp [notifications, Action.notification?]
        · refine ⟨if n < pos then .Truncated else .Modified, ?_⟩
          rw [handleEvent_write ⟨fw.symlink, B⟩ e2 pos rl2 n hn2 hw2 hc]
          simp [notifications, Action.notification?]
      · intro e2 rl2 st2 hn2
        have h1 : ¬ (e2.Name = fw.symlink ∧
            (e2.Op &&& Remove = Remove ∨ e2.Op &&& Rename = Rename)) :=
          fun h => hAs (hn2.symm.trans h.1)
        have h2 : ¬ e2.Name = B := fun h => hAB (hn2.symm.trans h)
        unfold RotatingFileWatcher.handleEvent
        simp only [if_neg h1, if_neg h2]
  · intro hfail
    unfold RotatingFileWatcher.handleEvent
    rw [if_pos hcond]
    cases readlink with
    | ok t => exact absurd rfl (hfail t)
    | notExist => simp [notifications, Action.notification?]
    | otherErr => simp [notifications, Action.notification?]

/-- A retarget whose `watcher.Add` succeeds leaves the new target on the
watch list, and no other path enters the list. -/
theorem retarget_subscribes_when_add_succeeds (fw : RotatingFileWatcher) (event : Event)
    (pos : Int) (B : String) (stat : FsResult Int)
    (addOk : WatchPath → Bool) (ws : List WatchPath)
    (hname : event.Name = fw.symlink)
    (hop : event.Op &&& Remove = Remove ∨ event.Op &&& Rename = Rename)
    (hadd : addOk (.path B) = true) :
    WatchPath.path B ∈ watchList addOk ws (fw.handleEvent event pos (.ok B) stat).2 := by
  have hcond : event.Name = fw.symlink ∧
      (event.Op &&& Remove = Remove ∨ event.Op &&& Rename = Rename) := ⟨hname, hop⟩
  unfold RotatingFileWatcher.handleEvent
  rw [if_pos hcond]
  simp only [watchList, List.foldl_cons, List.foldl_nil, watchListStep, hadd, if_true]
  split_ifs with h
  · exact h
  · simp

/-- C6 as stated fails: a write-kind event naming the tracked target, with a
successful stat of size 5 below `pos = 10`, for which `handleEvent` does not
emit Truncated.  The indirection `current` was repointed to itself, so the
tracked target is the indirection path; the event also has the rename bit, the
first case of the switch takes it, and the retarget emits Modified. -/
theorem C6_counterexample :
    ((⟨"current", "app.log"⟩ : RotatingFileWatcher).watchEvents 10
        [.event ⟨"current", Rename⟩ (.ok "current") .notExist]).fw
      = ⟨"current", "current"⟩
    ∧ (⟨"current", Write ||| Rename⟩ : Event).Name
      = (⟨"current", "current"⟩ : RotatingFileWatcher).target
    ∧ (⟨"current", Write ||| Rename⟩ : Event).Op &&& Write = Write
    ∧ (5 : Int) < 10
    ∧ notifications ((⟨"current", "current"⟩ : RotatingFileWatcher).handleEvent
        ⟨"current", Write ||| Rename⟩ 10 (.ok "app.log.1") (.ok 5)).2 = [.Modified]
    ∧ notifications ((⟨"current", "current"⟩ : RotatingFileWatcher).handleEvent
        ⟨"current", Write ||| Rename⟩ 10 (.ok "app.log.1") (.ok 5)).2 ≠ [.Truncated] := by
  decide

/-- C6 (amended): rotation-aware watcher, write on the tracked target.
Whatever the worker handled before (`pre`: earlier events, earlier sizes,
retargets), for every event with the write bit naming the currently tracked
target, other than a remove- or rename-kind event naming the indirection path,
whose re-stat succeeds with size `n`: exactly Truncated is emitted when
`n < pos` and exactly Modified otherwise (also when `n = pos`), where `pos` is
the position the stream was started with; the tracked state is unchanged. -/
theorem C6_write_compares_with_start_position (fw : RotatingFileWatcher) (pos : Int)
    (pre : List RotSelect) (event : Event) (readlink : FsResult String) (n : Int)
    (hrun : (fw.watchEvents pos pre).exited = false)
    (hname : event.Name = (fw.watchEvents pos pre).fw.target)
    (hop : event.Op &&& Write = Write)
    (hnot : ¬ (event.Name = fw.symlink ∧
      (event.Op &&& Remove = Remove ∨ event.Op &&& Rename = Rename))) :
    notifications (fw.watchEvents pos (pre ++ [.event event readlink (.ok n)])).trace
        = notifications (fw.watchEvents pos pre).trace
            ++ [if n < pos then .Truncated else .Modified]
      ∧ (fw.watchEvents pos (pre ++ [.event event readlink (.ok n)])).fw
        = (fw.watchEvents pos pre).fw := by
  have hnot2 : ¬ (event.Name = (fw.watchEvents pos pre).fw.symlink ∧
      (event.Op &&& Remove = Remove ∨ event.Op &&& Rename = Rename)) := by
    rw [watchEvents_symlink]; exact hnot
  rw [watchEvents_append fw pos pre _ hrun]
  simp only [RotatingFileWatcher.watchEvents,
    handleEvent_write (fw.watchEvents pos pre).fw event pos readlink n hname hop hnot2]
  refine ⟨?_, trivial⟩
  rw [notifications_append]
  simp [notifications, Action.notification?]

/-- Instance of C6 (amended): stream started at position 100; after a write of
size 500 and a retarget to `app.log.2`, a write of size 40 on the new target
is still compared with 100. -/
theorem C6_write_compares_with_start_position_witness :
    notifications ((⟨"current", "app.log.1"⟩ : RotatingFileWatcher).watchEvents 100
        ([.event ⟨"app.log.1", Write⟩ .notExist (.ok 500),
          .event ⟨"current", Rename⟩ (.ok "app.log.2") .notExist]
          ++ [.event ⟨"app.log.2", Write⟩ .notExist (.ok 40)])).trace
      = [.Modified, .Modified, .Truncated] :=
  (C6_write_compares_with_start_position ⟨"current", "app.log.1"⟩ 100
      [.event ⟨"app.log.1", Write⟩ .notExist (.ok 500),
       .event ⟨"current", Rename⟩ (.ok "app.log.2") .notExist]
      ⟨"app.log.2", Write⟩ .notExist 40 (by decide) (by decide) (by decide)
      (by decide)).1.trans (by decide)

/-- C7 as stated fails: an event naming the tracked target (not the
indirection path) whose kind has the remove bit and also the write bit is
taken by the write branch; with a successful stat it emits Modified, not
Deleted. -/
theorem C7_counterexample :
    (⟨"app.log", Write ||| Remove⟩ : Event).Op &&& Remove = Remove
    ∧ (⟨"app.log", Write ||| Remove⟩ : Event).Name
      = (⟨"current", "app.log"⟩ : RotatingFileWatcher).target
    ∧ (⟨"app.log", Write ||| Remove⟩ : Event).Name
      ≠ (⟨"current", "app.log"⟩ : RotatingFileWatcher).symlink
    ∧ notifications ((⟨"current", "app.log"⟩ : RotatingFileWatcher).handleEvent
        ⟨"app.log", Write ||| Remove⟩ 0 .notExist (.ok 5)).2 = [.Modified] := by
  decide

/-- C7 (amended): rotation-aware watcher, remove of the tracked target.  For
every event whose kind has the remove bit and not the write bit, and whose
name is the currently tracked target and not the indirection path,
`handleEvent` makes exactly one call, `NotifyDeleted` (so neither Modified nor
Truncated), whatever other kind bits the event carries and whatever the
filesystem reports; the tracked state is unchanged. -/
theorem C7_remove_of_target_emits_deleted (fw : RotatingFileWatcher) (event : Event)
    (pos : Int) (readlink : FsResult String) (stat : FsResult Int)
    (hname : event.Name = fw.target)
    (hsym : event.Name ≠ fw.symlink)
    (hrem : event.Op &&& Remove = Remove)
    (hw : event.Op &&& Write ≠ Write) :
    fw.handleEvent event pos readlink stat = (fw, [.notify .Deleted])
      ∧ notifications (fw.handleEvent event pos readlink stat).2 = [.Deleted] := by
  have h1 : ¬ (event.Name = fw.symlink ∧
      (event.Op &&& Remove = Remove ∨ event.Op &&& Rename = Rename)) :=
    fun h => hsym h.1
  have hret : fw.handleEvent event pos readlink stat = (fw, [.notify .Deleted]) := by
    unfold RotatingFileWatcher.handleEvent
    rw [if_neg h1, if_pos hname, if_neg hw, if_pos hrem]
  refine ⟨hret, ?_⟩
  rw [hret]; simp [notifications, Action.notification?]

/-- Instance of C7 (amended): a remove event that also has the chmod and
rename bits, on the tracked target. -/
theorem C7_remove_of_target_emits_deleted_witness :
    notifications ((⟨"current", "app.log"⟩ : RotatingFileWatcher).handleEvent
        ⟨"app.log", Remove ||| Chmod ||| Rename⟩ 0 (.ok "app.log") (.ok 5)).2
      = [.Deleted] :=
  (C7_remove_of_target_emits_deleted ⟨"current", "app.log"⟩
      ⟨"app.log", Remove ||| Chmod ||| Rename⟩ 0 (.ok "app.log") (.ok 5)
      rfl (by decide) (by decide) (by decide)).2

/-- C8: in the rotation-aware watcher Deleted is not terminal.  The tracked
target is removed (Deleted), then a write event naming it arrives while the
path is gone (a second Deleted), then the indirection is repointed
(Modified): all three are emitted and the worker is still running. -/
theorem C8_rotating_worker_runs_on_after_deleted :
    notifications ((⟨"current", "app.log"⟩ : RotatingFileWatcher).watchEvents 0
        [.event ⟨"app.log", Remove⟩ (.ok "app.log") .notExist,
         .event ⟨"app.log", Write⟩ (.ok "app.log") .notExist,
         .event ⟨"current", Rename⟩ (.ok "app.log.1") (.ok 0)]).trace
      = [.Deleted, .Deleted, .Modified]
    ∧ ((⟨"current", "app.log"⟩ : RotatingFileWatcher).watchEvents 0
        [.event ⟨"app.log", Remove⟩ (.ok "app.log") .notExist,
         .event ⟨"app.log", Write⟩ (.ok "app.log") .notExist,
         .event ⟨"current", Rename⟩ (.ok "app.log.1") (.ok 0)]).exited = false := by
  decide

/-- C9: in the rotation-aware watcher a stat failure that is not a not-found
error (permission, transient I/O) on a write event naming the tracked target
is mapped to Deleted. -/
theorem C9_rotating_maps_any_stat_error_to_deleted :
    (⟨"current", "app.log"⟩ : RotatingFileWatcher).handleEvent
        ⟨"app.log", Write⟩ 0 (.ok "app.log") .otherErr
      = (⟨"current", "app.log"⟩, [.stat "app.log", .notify .Deleted]) := by
  decide

/-- The direct-watcher half of C9: a failure of Lstat or Stat that is not a
not-found error emits nothing, leaves the watcher state unchanged and does not
end the loop. -/
theorem direct_other_stat_error_is_transient (fw : InotifyFileWatcher) (event : Event)
    (lstat : FsResult Unit) (stat : FsResult Int)
    (hname : event.Name = fw.Filename)
    (herr : if event.Op &&& Remove = Remove then lstat = .otherErr else stat = .otherErr) :
    notifications (workerStep fw (.event event lstat stat)).trace = []
      ∧ (workerStep fw (.event event lstat stat)).fw = fw
      ∧ (workerStep fw (.event event lstat stat)).exit = false := by
  by_cases hop : event.Op &&& Remove = Remove
  · rw [if_pos hop] at herr
    subst herr
    simp [workerStep, hname, hop, notifications, Action.notification?]
  · rw [if_neg hop] at herr
    subst herr
    simp [workerStep, hname, hop, notifications, Action.notification?]

/-- C10: `RotatingFileWatcher.BlockUntilExists` performs the existence check
first and subscribes to the parent directory only afterwards: when the
indirection path does not exist yet, the calls are `os.Stat`, then
`fsnotify.NewWatcher`, then `watcher.Add`. -/
theorem C10_rotating_stats_before_subscribing :
    ((⟨"current", ""⟩ : RotatingFileWatcher).BlockUntilExists .notExist true true []).2
      = [.stat "current", .newWatcher, .watcherAdd (.dirOf "current")]
    ∧ ((⟨"current", ""⟩ : RotatingFileWatcher).BlockUntilExists .notExist true true []).1
      = .blocked := by
  decide

/-- In every execution of `RotatingFileWatcher.BlockUntilExists` the first call
is `os.Stat`; no subscription precedes it. -/
theorem rotating_block_starts_with_stat (fw : RotatingFileWatcher) (stat : FsResult Unit)
    (newWatcherOk addOk : Bool) (inputs : List RotCreateSelect) :
    ∃ rest, (fw.BlockUntilExists stat newWatcherOk addOk inputs).2
      = .stat fw.symlink :: rest := by
  unfold RotatingFileWatcher.BlockUntilExists
  cases stat with
  | ok u => exact ⟨_, rfl⟩
  | otherErr => exact ⟨_, rfl⟩
  | notExist =>
    simp only
    split_ifs <;>
      first
        | exact ⟨_, rfl⟩
        | (generalize rotBlockLoop fw inputs = o
           cases o <;> exact ⟨_, rfl⟩)

/-- In every execution of `InotifyFileWatcher.BlockUntilExists` the first call
is `WatchCreate`, and when it succeeds the second is `os.Stat`: the
registration precedes the existence check. -/
theorem direct_block_registers_before_stat (fw : InotifyFileWatcher) (stat : FsResult Unit)
    (abs : String → Option String) (inputs : List CreateSelect) :
    ∃ rest, (fw.BlockUntilExists true stat abs inputs).2
      = .watchCreate fw.Filename :: .stat fw.Filename :: rest := by
  unfold InotifyFileWatcher.BlockUntilExists
  cases stat with
  | ok u => exact ⟨_, rfl⟩
  | otherErr => exact ⟨_, rfl⟩
  | notExist =>
    simp only [Bool.not_eq_true, if_false]
    generalize blockLoop fw abs inputs = o
    cases o <;> exact ⟨_, rfl⟩

end Watch
